import Mathlib

/-
Verification of the RoadPlugin core (src/roadplugin/plugin.py): the plugin
lifecycle state machine (PluginManager / PluginRegistry / PluginLoader) and
the hook registration and dispatch engine (HookManager).

Modelling conventions:
- Python dicts are modelled as insertion-ordered association lists
  (List (String × β)) with first-match lookup; dict assignment updates the
  entry in place or appends a fresh key at the end, deletion removes the key.
- Handlers (Python Callable) are an abstract payload type H; where a claim
  needs to run handlers, H is instantiated with an explicit function type
  returning Except, where Except.error models a raised exception.
- async handlers: in the source both the sync and async branch simply apply
  the handler and wait for its result before continuing, so both branches
  collapse to function application; the async_handler flag is kept as data.
- Lifecycle callbacks (on_load/on_enable/on_disable/on_unload) and the
  constructor of a plugin class either succeed or raise; this outcome is
  recorded per class as a Bool (ok = no exception raised).  A successful
  on_load leaves in self._hooks the registrations made via register_hook
  during the callback; these are recorded as the class's load_hooks.
- PluginContext.config / PluginContext.data and PluginInfo.config_schema are
  Dict[str, Any] bags that no modelled operation ever reads; they are
  omitted from the model (set_config only feeds PluginContext.config).
-/

namespace RoadPlugin

/-- Plugin lifecycle states (class PluginState in plugin.py). -/
inductive PluginState where
  | discovered
  | loaded
  | enabled
  | disabled
  | error
deriving DecidableEq, Repr

/-- Hook execution priorities (class HookPriority in plugin.py), an
int-valued enum. -/
inductive HookPriority where
  | highest
  | high
  | normal
  | low
  | lowest
deriving DecidableEq, Repr

/-- Numeric value of a priority (the .value of the int enum, used as the
sort key in HookManager.register). -/
def HookPriority.value : HookPriority → Nat
  | .highest => 0
  | .high => 25
  | .normal => 50
  | .low => 75
  | .lowest => 100

/-- Plugin metadata (dataclass PluginInfo).  config_schema is omitted: it is
a Dict[str, Any] never read by any modelled operation. -/
structure PluginInfo where
  name : String
  version : String := "0.1.0"
  description : String := ""
  author : String := ""
  dependencies : List String := []
  hooks : List String := []
deriving DecidableEq, Repr

/-- A registered hook handler (dataclass HookRegistration).  The handler
payload type H stands for Python's Callable. -/
structure HookRegistration (H : Type) where
  name : String
  handler : H
  plugin_name : String
  priority : HookPriority := .normal
  async_handler : Bool := false
deriving DecidableEq, Repr

/-- Context passed to plugins (dataclass PluginContext).  config and data
are Dict[str, Any] bags never read by any modelled operation; omitted. -/
structure PluginContext where
  plugin_name : String
deriving DecidableEq, Repr

/-- First-match lookup in an association list: Python dict read
(d.get(k) / d[k]). -/
def alistGet {β : Type} : List (String × β) → String → Option β
  | [], _ => none
  | (k2, v) :: t, k => if k2 = k then some v else alistGet t k

/-- Association-list update: Python dict assignment d[k] = v.  Updates the
first entry with key k in place, or appends a fresh key at the end. -/
def alistSet {β : Type} : List (String × β) → String → β → List (String × β)
  | [], k, v => [(k, v)]
  | (k2, v2) :: t, k, v =>
      if k2 = k then (k, v) :: t else (k2, v2) :: alistSet t k v

/-- Association-list deletion: Python del d[k] / d.pop(k). -/
def alistRemove {β : Type} : List (String × β) → String → List (String × β)
  | [], _ => []
  | (k2, v) :: t, k => if k2 = k then t else (k2, v) :: alistRemove t k

/-- Insert a registration into a list that is sorted by ascending priority
value, after all entries of priority value less than or equal to its own. -/
def insertByPriority {H : Type} (r : HookRegistration H) :
    List (HookRegistration H) → List (HookRegistration H)
  | [] => [r]
  | b :: t =>
      if r.priority.value ≤ b.priority.value then r :: b :: t
      else b :: insertByPriority r t

/-- Stable sort by ascending priority value, modelling
list.sort(key=lambda h: h.priority.value).  Python's list.sort is stable,
and a stable sort's output is uniquely determined by its input, so this
insertion sort computes exactly the list the source produces. -/
def sortByPriority {H : Type} : List (HookRegistration H) → List (HookRegistration H)
  | [] => []
  | a :: t => insertByPriority a (sortByPriority t)

/-- Hook registry state (class HookManager): dict from hook name to the
ordered list of registrations. -/
structure HookManager (H : Type) where
  hooks : List (String × List (HookRegistration H)) := []
deriving DecidableEq, Repr

/-- The stored registration list for a hook name, defaulting to the empty
list when the name has no entry (self.hooks.get(name, [])). -/
def lookupHooks {H : Type} (l : List (String × List (HookRegistration H)))
    (k : String) : List (HookRegistration H) :=
  (alistGet l k).getD []

/-- HookManager.register: ensure the name has an entry, append the new
registration, then re-sort that name's list by priority value. -/
def HookManager.register {H : Type} (m : HookManager H)
    (r : HookRegistration H) : HookManager H :=
  { hooks := alistSet m.hooks r.name
      (sortByPriority (lookupHooks m.hooks r.name ++ [r])) }

/-- Fold HookManager.register over a list of registrations (the
"for hook in plugin.get_hooks(): self.hooks.register(hook)" loop, and the
driver for register-sequence properties). -/
def registerAll {H : Type} (m : HookManager H)
    (rs : List (HookRegistration H)) : HookManager H :=
  rs.foldl HookManager.register m

/-- HookManager.unregister: for every hook name, drop the registrations
whose plugin_name matches, and return the total number dropped (summed
per-name length differences, as in the source). -/
def HookManager.unregister {H : Type} (m : HookManager H)
    (pname : String) : HookManager H × Nat :=
  ({ hooks := m.hooks.map
      (fun p => (p.1, p.2.filter (fun h => h.plugin_name != pname))) },
   (m.hooks.map
      (fun p => p.2.length - (p.2.filter (fun h => h.plugin_name != pname)).length)).sum)

/-- Outcome of invoking one handler in HookManager.execute: the try body
appends the handler's result, the except arm appends None. -/
def execResult {A E B : Type} (args : A)
    (reg : HookRegistration (A → Except E B)) : Option B :=
  match reg.handler args with
  | .ok v => some v
  | .error _ => none

/-- HookManager.execute: run every registration stored under the name, in
stored (priority) order, collecting one result per handler; a raising
handler contributes None in its position. -/
def HookManager.execute {A E B : Type} (m : HookManager (A → Except E B))
    (name : String) (args : A) : List (Option B) :=
  (lookupHooks m.hooks name).foldl
    (fun results reg => results ++ [execResult args reg]) []

/-- One step of HookManager.execute_filter: the try body replaces the value
with the handler's result, the except arm leaves the value unchanged. -/
def filterStep {V A E : Type} (args : A) (v : V)
    (reg : HookRegistration (V → A → Except E V)) : V :=
  match reg.handler v args with
  | .ok v2 => v2
  | .error _ => v

/-- HookManager.execute_filter: thread the value through every registration
stored under the name, in stored (priority) order. -/
def HookManager.execute_filter {V A E : Type}
    (m : HookManager (V → A → Except E V)) (name : String) (value : V)
    (args : A) : V :=
  (lookupHooks m.hooks name).foldl (filterStep args) value

/-- A plugin type: its class-level PluginInfo, the outcome of its
constructor and of each lifecycle callback (ok = does not raise), and the
hook registrations a successful on_load leaves in self._hooks. -/
structure PluginClass (H : Type) where
  info : PluginInfo
  init_ok : Bool := true
  on_load_ok : Bool := true
  on_enable_ok : Bool := true
  on_disable_ok : Bool := true
  on_unload_ok : Bool := true
  load_hooks : List (HookRegistration H) := []
deriving DecidableEq, Repr

/-- A live plugin instance (class Plugin): its class, its context, its
lifecycle state (LOADED on construction) and its _hooks list. -/
structure Plugin (H : Type) where
  cls : PluginClass H
  context : PluginContext
  state : PluginState := .loaded
  hooks : List (HookRegistration H) := []
deriving DecidableEq, Repr

/-- self.info: the class-level metadata seen from an instance. -/
def Plugin.info {H : Type} (p : Plugin H) : PluginInfo :=
  p.cls.info

/-- Plugin.get_hooks: the instance's _hooks list. -/
def Plugin.get_hooks {H : Type} (p : Plugin H) : List (HookRegistration H) :=
  p.hooks

/-- Plugin.register_hook: append a registration owned by self.info.name. -/
def Plugin.register_hook {H : Type} (p : Plugin H) (name : String)
    (handler : H) (priority : HookPriority := .normal) : Plugin H :=
  { p with hooks := p.hooks ++
      [{ name := name, handler := handler, plugin_name := p.cls.info.name,
         priority := priority }] }

/-- Plugin source cache (class PluginLoader): the _loaded dict from name to
resolved plugin type.  Resolution itself (importlib plus the subclass scan)
is the external-collaborator boundary and is passed in as a function
resolve : String → Option (PluginClass H); none covers every failure kind
(not found, load error, no qualifying type). -/
structure PluginLoader (H : Type) where
  loaded : List (String × PluginClass H) := []
deriving DecidableEq, Repr

/-- PluginLoader.load: return the cached type when the name is in _loaded;
otherwise resolve, cache on success, and return the result. -/
def PluginLoader.load {H : Type} (l : PluginLoader H)
    (resolve : String → Option (PluginClass H)) (name : String) :
    PluginLoader H × Option (PluginClass H) :=
  match alistGet l.loaded name with
  | some cls => (l, some cls)
  | none =>
      match resolve name with
      | some cls => ({ loaded := alistSet l.loaded name cls }, some cls)
      | none => (l, none)

/-- PluginLoader.unload: evict the cached type for a name; reports whether
an entry existed. -/
def PluginLoader.unload {H : Type} (l : PluginLoader H) (name : String) :
    PluginLoader H × Bool :=
  match alistGet l.loaded name with
  | some _ => ({ loaded := alistRemove l.loaded name }, true)
  | none => (l, false)

/-- Catalog of live instances (class PluginRegistry): dict from plugin name
to instance. -/
structure PluginRegistry (H : Type) where
  plugins : List (String × Plugin H) := []
deriving DecidableEq, Repr

/-- PluginRegistry.register: store the instance under its info.name. -/
def PluginRegistry.register {H : Type} (r : PluginRegistry H)
    (p : Plugin H) : PluginRegistry H :=
  { plugins := alistSet r.plugins p.cls.info.name p }

/-- PluginRegistry.get: look up an instance by name. -/
def PluginRegistry.get {H : Type} (r : PluginRegistry H) (name : String) :
    Option (Plugin H) :=
  alistGet r.plugins name

/-- PluginRegistry.unregister: pop the instance stored under a name. -/
def PluginRegistry.unregister {H : Type} (r : PluginRegistry H)
    (name : String) : PluginRegistry H :=
  { plugins := alistRemove r.plugins name }

/-- High-level manager state (class PluginManager): loader cache, instance
catalog and hook registry.  The _configs dict only feeds
PluginContext.config, which no modelled operation reads; omitted. -/
structure PluginManager (H : Type) where
  loader : PluginLoader H := {}
  registry : PluginRegistry H := {}
  hooks : HookManager H := {}
deriving DecidableEq, Repr

/-- PluginManager.load: resolve the type through the loader, instantiate,
run on_load, harvest and register the instance's hooks, insert the
instance in the catalog.  Any exception from the constructor or on_load
aborts with none, leaving catalog and hook registry untouched. -/
def PluginManager.load {H : Type} (m : PluginManager H)
    (resolve : String → Option (PluginClass H)) (name : String) :
    PluginManager H × Option (Plugin H) :=
  let res := m.loader.load resolve name
  let m1 : PluginManager H := { m with loader := res.1 }
  match res.2 with
  | none => (m1, none)
  | some cls =>
      if cls.init_ok then
        if cls.on_load_ok then
          let p : Plugin H :=
            { cls := cls, context := { plugin_name := name },
              state := .loaded, hooks := cls.load_hooks }
          ({ m1 with hooks := registerAll m1.hooks p.get_hooks,
                     registry := m1.registry.register p }, some p)
        else (m1, none)
      else (m1, none)

/-- PluginManager.enable: no-op success when already enabled; otherwise run
on_enable — on success the state becomes enabled, on a raise the state
becomes error and failure is returned. -/
def PluginManager.enable {H : Type} (m : PluginManager H) (name : String) :
    PluginManager H × Bool :=
  match m.registry.get name with
  | none => (m, false)
  | some p =>
      if p.state = PluginState.enabled then (m, true)
      else if p.cls.on_enable_ok then
        ({ m with registry :=
            { plugins := alistSet m.registry.plugins name
                { p with state := .enabled } } }, true)
      else
        ({ m with registry :=
            { plugins := alistSet m.registry.plugins name
                { p with state := .error } } }, false)

/-- PluginManager.disable: no-op success when already disabled; otherwise
run on_disable — on success the state becomes disabled, on a raise the
state is left unchanged and failure is returned. -/
def PluginManager.disable {H : Type} (m : PluginManager H) (name : String) :
    PluginManager H × Bool :=
  match m.registry.get name with
  | none => (m, false)
  | some p =>
      if p.state = PluginState.disabled then (m, true)
      else if p.cls.on_disable_ok then
        ({ m with registry :=
            { plugins := alistSet m.registry.plugins name
                { p with state := .disabled } } }, true)
      else (m, false)

/-- PluginManager.unload: disable first when the instance is enabled
(ignoring that call's outcome), then run on_unload — on success unregister
the plugin's hooks, remove it from the catalog and evict the cached type;
on a raise return failure with no removal. -/
def PluginManager.unload {H : Type} (m : PluginManager H) (name : String) :
    PluginManager H × Bool :=
  match m.registry.get name with
  | none => (m, false)
  | some p =>
      let m1 := if p.state = PluginState.enabled then (m.disable name).1 else m
      if p.cls.on_unload_ok then
        ({ m1 with hooks := (m1.hooks.unregister name).1,
                   registry := m1.registry.unregister name,
                   loader := (m1.loader.unload name).1 }, true)
      else (m1, false)

/-- A plain class handed to the plugin(...) decorator: the optional subset
of lifecycle callbacks it supplies (the decorator's hasattr checks), each
an abstract action of type A.  Non-lifecycle attributes are copied verbatim
by the decorator and play no role in lifecycle dispatch, so they are not
modelled. -/
structure PlainClass (A : Type) where
  on_load : Option A := none
  on_enable : Option A := none
  on_disable : Option A := none
  on_unload : Option A := none
deriving DecidableEq, Repr

/-- The plugin type produced by the plugin(...) decorator: its class-level
info and the lifecycle action each wrapper method performs. -/
structure DecoratedPluginClass (A : Type) where
  info : PluginInfo
  on_load : A
  on_enable : A
  on_disable : A
  on_unload : A
deriving DecidableEq, Repr

/-- The plugin(name, version, description) decorator.  noop is the base
class's empty callback body (pass).  The generated subclass defines
wrappers for on_load, on_enable and on_disable that invoke the wrapped
class's callback when supplied and otherwise do nothing; it defines no
on_unload wrapper, so the wrapper's on_unload is the inherited base no-op
whatever the wrapped class supplies. -/
def plugin {A : Type} (noop : A) (name : String) (version : String)
    (description : String) (cls : PlainClass A) : DecoratedPluginClass A :=
  { info := { name := name, version := version, description := description },
    on_load := cls.on_load.getD noop,
    on_enable := cls.on_enable.getD noop,
    on_disable := cls.on_disable.getD noop,
    on_unload := noop }

/-- Strict ordering on registrations tagged with a Nat handler slot:
earlier means strictly smaller priority value, or equal priority value and
smaller tag (earlier registration). -/
def regLt (a b : HookRegistration Nat) : Prop :=
  a.priority.value < b.priority.value ∨
    (a.priority.value = b.priority.value ∧ a.handler < b.handler)

/-- A registration sequence: the i-th call registers hook name ps[i].1 with
priority ps[i].2, its registration position recorded in the otherwise
opaque handler slot. -/
def regSeq : Nat → List (String × HookPriority) → List (HookRegistration Nat)
  | _, [] => []
  | i, p :: t =>
      { name := p.1, handler := i, plugin_name := "", priority := p.2 }
        :: regSeq (i + 1) t

/-- A concrete plugin class named "p" with selectable callback outcomes,
for concrete evaluations of the lifecycle operations. -/
def sampleClass (eOk dOk uOk : Bool) : PluginClass Unit :=
  { info := { name := "p" }, on_enable_ok := eOk, on_disable_ok := dOk,
    on_unload_ok := uOk }

/-- A live instance of sampleClass in a chosen state. -/
def samplePlugin (st : PluginState) (eOk dOk uOk : Bool) : Plugin Unit :=
  { cls := sampleClass eOk dOk uOk, context := { plugin_name := "p" },
    state := st }

/-- A manager whose catalog holds exactly samplePlugin under its name. -/
def sampleManager (st : PluginState) (eOk dOk uOk : Bool) : PluginManager Unit :=
  { registry := { plugins := [("p", samplePlugin st eOk dOk uOk)] } }

/-- A concrete hook registration owned by plugin "p". -/
def dupHook : HookRegistration Unit :=
  { name := "h", handler := (), plugin_name := "p" }

/-- A concrete plugin class whose on_load registers dupHook. -/
def dupClass : PluginClass Unit :=
  { info := { name := "p" }, load_hooks := [dupHook] }

/-- A resolution environment that resolves exactly the name "p". -/
def dupResolve : String → Option (PluginClass Unit) :=
  fun s => if s = "p" then some dupClass else none

/-- The manager state after one successful load of "p". -/
def dupM1 : PluginManager Unit :=
  (PluginManager.load {} dupResolve "p").1

/-- A handler for hook "x" that always raises. -/
def execReg1 : HookRegistration (Nat → Except Unit Nat) :=
  { name := "x", handler := fun _ => Except.error (), plugin_name := "p" }

/-- A handler for hook "x" that returns its input plus one. -/
def execReg2 : HookRegistration (Nat → Except Unit Nat) :=
  { name := "x", handler := fun v => Except.ok (v + 1), plugin_name := "q" }

/-- A hook registry with one raising and one succeeding handler for "x". -/
def execFixture : HookManager (Nat → Except Unit Nat) :=
  { hooks := [("x", [execReg1, execReg2])] }

/-- A filter handler for "t" adding one. -/
def filtReg1 : HookRegistration (Nat → Unit → Except Unit Nat) :=
  { name := "t", handler := fun v _ => Except.ok (v + 1), plugin_name := "p" }

/-- A filter handler for "t" that always raises. -/
def filtReg2 : HookRegistration (Nat → Unit → Except Unit Nat) :=
  { name := "t", handler := fun _ _ => Except.error (), plugin_name := "q" }

/-- A filter handler for "t" doubling the value. -/
def filtReg3 : HookRegistration (Nat → Unit → Except Unit Nat) :=
  { name := "t", handler := fun v _ => Except.ok (v * 2), plugin_name := "r" }

/-- A hook registry whose "t" chain is add-one, raise, double. -/
def filtFixture : HookManager (Nat → Unit → Except Unit Nat) :=
  { hooks := [("t", [filtReg1, filtReg2, filtReg3])] }

/-- A manager holding an enabled plugin "p" whose on_disable raises and
whose on_unload succeeds, with one hook owned by "p" registered. -/
def unloadFixture : PluginManager Unit :=
  { registry := { plugins := [("p", samplePlugin .enabled true false true)] },
    hooks := { hooks := [("h", [dupHook])] } }

theorem alistGet_set_self {β : Type} (l : List (String × β)) (k : String)
    (v : β) : alistGet (alistSet l k v) k = some v := by
  induction l with
  | nil => simp [alistSet, alistGet]
  | cons h t ih =>
      obtain ⟨k2, v2⟩ := h
      by_cases hk : k2 = k
      · simp [alistSet, alistGet, hk]
      · simp [alistSet, alistGet, hk, ih]

theorem alistGet_set_ne {β : Type} (l : List (String × β)) (k k' : String)
    (v : β) (hne : k ≠ k') :
    alistGet (alistSet l k v) k' = alistGet l k' := by
  induction l with
  | nil => simp [alistSet, alistGet, hne]
  | cons h t ih =>
      obtain ⟨k2, v2⟩ := h
      by_cases hk : k2 = k
      · subst hk
        simp [alistSet, alistGet, hne]
      · simp [alistSet, alistGet, hk, ih]

theorem alistGet_map {β γ : Type} (f : β → γ) (l : List (String × β))
    (k : String) :
    alistGet (l.map (fun p => (p.1, f p.2))) k = (alistGet l k).map f := by
  induction l with
  | nil => simp [alistGet]
  | cons h t ih =>
      obtain ⟨k2, v2⟩ := h
      by_cases hk : k2 = k
      · simp [alistGet, hk]
      · simp [alistGet, hk, ih]

theorem alistGet_eq_none_of_not_mem {β : Type} (l : List (String × β))
    (k : String) (h : k ∉ l.map Prod.fst) : alistGet l k = none := by
  induction l with
  | nil => simp [alistGet]
  | cons p t ih =>
      obtain ⟨k2, v2⟩ := p
      simp only [List.map_cons, List.mem_cons] at h
      push_neg at h
      have hk : k2 ≠ k := fun he => h.1 he.symm
      simp [alistGet, hk, ih h.2]

theorem alistGet_remove_self {β : Type} (l : List (String × β)) (k : String)
    (hnd : (l.map Prod.fst).Nodup) : alistGet (alistRemove l k) k = none := by
  induction l with
  | nil => simp [alistRemove, alistGet]
  | cons p t ih =>
      obtain ⟨k2, v2⟩ := p
      simp only [List.map_cons, List.nodup_cons] at hnd
      by_cases hk : k2 = k
      · subst hk
        simpa [alistRemove] using alistGet_eq_none_of_not_mem t k2 hnd.1
      · simp [alistRemove, alistGet, hk, ih hnd.2]

theorem lookupHooks_register_self {H : Type} (m : HookManager H)
    (r : HookRegistration H) :
    lookupHooks (m.register r).hooks r.name =
      sortByPriority (lookupHooks m.hooks r.name ++ [r]) := by
  simp [HookManager.register, lookupHooks, alistGet_set_self]

theorem lookupHooks_register_ne {H : Type} (m : HookManager H)
    (r : HookRegistration H) (n : String) (h : r.name ≠ n) :
    lookupHooks (m.register r).hooks n = lookupHooks m.hooks n := by
  simp [HookManager.register, lookupHooks, alistGet_set_ne _ _ _ _ h]

theorem lookupHooks_unregister {H : Type} (m : HookManager H)
    (pname n : String) :
    lookupHooks (m.unregister pname).1.hooks n =
      (lookupHooks m.hooks n).filter (fun h => h.plugin_name != pname) := by
  simp only [HookManager.unregister, lookupHooks, alistGet_map]
  cases h : alistGet m.hooks n <;> simp [h]

theorem length_sub_length_filter_not {α : Type} (p : α → Bool) (l : List α) :
    l.length - (l.filter (fun a => !(p a))).length = l.countP p := by
  induction l with
  | nil => simp
  | cons a t ih =>
      cases hpa : p a
      · simp [List.filter_cons, List.countP_cons, hpa, Nat.succ_sub_succ, ih]
      · have hle : (t.filter (fun a => !(p a))).length ≤ t.length :=
          List.length_filter_le _ _
        simp [List.filter_cons, List.countP_cons, hpa,
          Nat.succ_sub hle, ih]

theorem unregister_count {H : Type} (m : HookManager H) (pname : String) :
    (m.unregister pname).2 =
      (m.hooks.map (fun p => p.2.countP (fun h => h.plugin_name == pname))).sum := by
  simp only [HookManager.unregister]
  congr 1
  apply List.map_congr_left
  intro p _
  have : (fun h : HookRegistration H => h.plugin_name != pname) =
      (fun h : HookRegistration H => !(h.plugin_name == pname)) := rfl
  rw [this, length_sub_length_filter_not]

theorem foldl_snoc_eq_map {α β : Type} (g : α → β) (l : List α)
    (acc : List β) :
    l.foldl (fun r a => r ++ [g a]) acc = acc ++ l.map g := by
  induction l generalizing acc with
  | nil => simp
  | cons a t ih => simp [List.foldl_cons, ih]

theorem mem_insertByPriority {H : Type} (r x : HookRegistration H)
    (l : List (HookRegistration H)) :
    x ∈ insertByPriority r l ↔ x = r ∨ x ∈ l := by
  induction l with
  | nil => simp [insertByPriority]
  | cons b t ih =>
      by_cases hc : r.priority.value ≤ b.priority.value
      · simp only [insertByPriority, if_pos hc, List.mem_cons]
      · simp only [insertByPriority, if_neg hc, List.mem_cons, ih]
        tauto

theorem mem_sortByPriority {H : Type} (x : HookRegistration H)
    (l : List (HookRegistration H)) : x ∈ sortByPriority l ↔ x ∈ l := by
  induction l with
  | nil => simp [sortByPriority]
  | cons a t ih => simp [sortByPriority, mem_insertByPriority, ih]

theorem regLt_le {a b : HookRegistration Nat} (h : regLt a b) :
    a.priority.value ≤ b.priority.value := by
  rcases h with h | ⟨h, _⟩
  · exact le_of_lt h
  · exact le_of_eq h

theorem pairwise_insertByPriority (r : HookRegistration Nat)
    (l : List (HookRegistration Nat)) (hl : l.Pairwise regLt)
    (hr : ∀ x ∈ l, r.priority.value = x.priority.value →
      r.handler < x.handler) :
    (insertByPriority r l).Pairwise regLt := by
  induction l with
  | nil => simp [insertByPriority]
  | cons b t ih =>
      rw [List.pairwise_cons] at hl
      obtain ⟨hb, ht⟩ := hl
      by_cases hc : r.priority.value ≤ b.priority.value
      · simp only [insertByPriority, if_pos hc]
        refine List.Pairwise.cons ?_ (List.Pairwise.cons hb ht)
        intro x hx
        rcases List.mem_cons.mp hx with rfl | hx
        · rcases lt_or_eq_of_le hc with h | h
          · exact Or.inl h
          · exact Or.inr ⟨h, hr x (List.mem_cons_self _ _) h⟩
        · have hle : r.priority.value ≤ x.priority.value :=
            le_trans hc (regLt_le (hb x hx))
          rcases lt_or_eq_of_le hle with h | h
          · exact Or.inl h
          · exact Or.inr ⟨h, hr x (List.mem_cons_of_mem _ hx) h⟩
      · simp only [insertByPriority, if_neg hc]
        refine List.Pairwise.cons ?_
          (ih ht (fun x hx h => hr x (List.mem_cons_of_mem _ hx) h))
        intro x hx
        rcases (mem_insertByPriority r x t).mp hx with rfl | hx
        · exact Or.inl (Nat.lt_of_not_le hc)
        · exact hb x hx

theorem pairwise_sortByPriority (l : List (HookRegistration Nat))
    (h : l.Pairwise (fun a b =>
      a.priority.value = b.priority.value → a.handler < b.handler)) :
    (sortByPriority l).Pairwise regLt := by
  induction l with
  | nil => simp [sortByPriority]
  | cons a t ih =>
      rw [List.pairwise_cons] at h
      obtain ⟨ha, ht⟩ := h
      exact pairwise_insertByPriority a _ (ih ht)
        (fun x hx => ha x ((mem_sortByPriority x t).mp hx))

theorem registerAll_pairwise (rs : List (HookRegistration Nat)) :
    ∀ (m : HookManager Nat),
    (∀ n, (lookupHooks m.hooks n).Pairwise regLt) →
    (∀ n x, x ∈ lookupHooks m.hooks n → ∀ r ∈ rs, x.handler < r.handler) →
    rs.Pairwise (fun a b => a.handler < b.handler) →
    ∀ n, (lookupHooks (registerAll m rs).hooks n).Pairwise regLt := by
  induction rs with
  | nil =>
      intro m h1 _ _ n
      simpa [registerAll] using h1 n
  | cons r rs ih =>
      intro m h1 h2 h3 n
      rw [List.pairwise_cons] at h3
      obtain ⟨h3r, h3t⟩ := h3
      have hrA : registerAll m (r :: rs) = registerAll (m.register r) rs := rfl
      rw [hrA]
      refine ih (m.register r) ?_ ?_ h3t n
      · intro n'
        by_cases hn : r.name = n'
        · rw [← hn, lookupHooks_register_self]
          apply pairwise_sortByPriority
          apply List.pairwise_append.mpr
          refine ⟨?_, ?_, ?_⟩
          · exact (h1 r.name).imp (fun {a b} hab heq =>
              Or.elim hab (fun hlt => absurd heq (ne_of_lt hlt))
                (fun hp => hp.2))
          · simp
          · intro x hx y hy
            rw [List.mem_singleton] at hy
            intro _
            rw [hy]
            exact h2 r.name x hx r (List.mem_cons_self _ _)
        · rw [lookupHooks_register_ne _ _ _ hn]
          exact h1 n'
      · intro n' x hx r' hr'
        by_cases hn : r.name = n'
        · rw [← hn, lookupHooks_register_self] at hx
          rcases List.mem_append.mp ((mem_sortByPriority _ _).mp hx)
            with hx3 | hx3
          · exact h2 r.name x hx3 r' (List.mem_cons_of_mem _ hr')
          · rw [List.mem_singleton] at hx3
            rw [hx3]
            exact h3r r' hr'
        · rw [lookupHooks_register_ne _ _ _ hn] at hx
          exact h2 n' x hx r' (List.mem_cons_of_mem _ hr')

theorem regSeq_handler_ge (ps : List (String × HookPriority)) :
    ∀ (i : Nat) (x : HookRegistration Nat), x ∈ regSeq i ps →
      i ≤ x.handler := by
  induction ps with
  | nil =>
      intro i x hx
      simp [regSeq] at hx
  | cons p t ih =>
      intro i x hx
      rcases List.mem_cons.mp hx with rfl | hx
      · exact le_refl _
      · exact le_trans (Nat.le_succ i) (ih (i + 1) x hx)

theorem regSeq_pairwise (ps : List (String × HookPriority)) :
    ∀ (i : Nat), (regSeq i ps).Pairwise
      (fun a b : HookRegistration Nat => a.handler < b.handler) := by
  induction ps with
  | nil =>
      intro i
      simp [regSeq]
  | cons p t ih =>
      intro i
      refine List.Pairwise.cons ?_ (ih (i + 1))
      intro x hx
      exact lt_of_lt_of_le (Nat.lt_succ_self i) (regSeq_handler_ge t (i + 1) x hx)

/-- Claim C4: for every sequence of HookManager.register calls (the i-th
call registers name ps[i].1 with priority ps[i].2 and its registration
position recorded in the handler tag), the stored list for every hook name
is sorted in non-decreasing order of numeric priority value, and any two
registrations with equal priority value appear in registration order. -/
theorem register_sorted_stable (ps : List (String × HookPriority))
    (n : String) :
    (lookupHooks (registerAll { hooks := [] } (regSeq 0 ps)).hooks n).Pairwise
      regLt := by
  apply registerAll_pairwise
  · intro n'
    simp [lookupHooks, alistGet]
  · intro n' x hx
    simp [lookupHooks, alistGet] at hx
  · exact regSeq_pairwise ps 0

/-- Claim C7: HookManager.unregister(owner) replaces every hook name's
stored list by that list with exactly the owner's registrations removed —
a filter, so all other registrations keep their relative order — and
returns the total number of registrations whose owner matches. -/
theorem unregister_spec {H : Type} (m : HookManager H) (owner : String) :
    (∀ n, lookupHooks (m.unregister owner).1.hooks n =
      (lookupHooks m.hooks n).filter (fun h => h.plugin_name != owner)) ∧
    (m.unregister owner).2 =
      (m.hooks.map
        (fun p => p.2.countP (fun h => h.plugin_name == owner))).sum :=
  ⟨fun n => lookupHooks_unregister m owner n, unregister_count m owner⟩

/-- Claim C5: HookManager.execute returns one result per stored
registration for the name, in stored order: each position holds the
handler's value, or none when that handler raises (so a raising handler
neither aborts the rest nor escapes to the caller); with zero
registrations it returns the empty list. -/
theorem execute_spec {A E B : Type} (m : HookManager (A → Except E B))
    (name : String) (args : A) :
    m.execute name args = (lookupHooks m.hooks name).map (execResult args) ∧
    (m.execute name args).length = (lookupHooks m.hooks name).length ∧
    (lookupHooks m.hooks name = [] → m.execute name args = []) := by
  have hmap : m.execute name args =
      (lookupHooks m.hooks name).map (execResult args) := by
    simp [HookManager.execute, foldl_snoc_eq_map]
  refine ⟨hmap, ?_, ?_⟩
  · rw [hmap]
    simp
  · intro h
    rw [hmap, h]
    simp

/-- Witness for execute_spec: an empty registry yields the empty result
list, and a registry whose "x" chain is raise-then-add-one yields a none
in the first position and the second handler's value in the second. -/
theorem execute_spec_witness :
    (({ hooks := [] } : HookManager (Nat → Except Unit Nat)).execute
      "x" 0 = []) ∧
    execFixture.execute "x" 4 = [none, some 5] := by
  refine ⟨(execute_spec { hooks := [] } "x" 0).2.2 rfl, ?_⟩
  rw [(execute_spec execFixture "x" 4).1]
  rfl

/-- Claim C6: HookManager.execute_filter threads the value through the
stored registrations in stored order: zero registrations return the value
unchanged; the first registration's filterStep output is fed to the rest
of the chain; and when the first handler raises, the unchanged value is
fed to the rest of the chain. -/
theorem execute_filter_spec {V A E : Type}
    (m : HookManager (V → A → Except E V)) (name : String) (v : V)
    (args : A) :
    (lookupHooks m.hooks name = [] → m.execute_filter name v args = v) ∧
    (∀ reg rest, lookupHooks m.hooks name = reg :: rest →
      m.execute_filter name v args =
        HookManager.execute_filter { hooks := [(name, rest)] } name
          (filterStep args v reg) args) ∧
    (∀ reg rest, lookupHooks m.hooks name = reg :: rest →
      ∀ e, reg.handler v args = Except.error e →
        m.execute_filter name v args =
          HookManager.execute_filter { hooks := [(name, rest)] } name
            v args) := by
  refine ⟨?_, ?_, ?_⟩
  · intro h
    simp [HookManager.execute_filter, h]
  · intro reg rest h
    simp only [HookManager.execute_filter]
    rw [h]
    simp [lookupHooks, alistGet]
  · intro reg rest h e he
    simp only [HookManager.execute_filter]
    rw [h]
    simp [lookupHooks, alistGet, filterStep, he]

/-- Witness for execute_filter_spec: the empty registry returns the value
unchanged; on the add-one / raise / double chain the head handler's output
feeds the tail chain, and the whole chain maps 5 to 12 (the raising middle
handler leaves the value unchanged). -/
theorem execute_filter_spec_witness :
    (({ hooks := [] } : HookManager (Nat → Unit → Except Unit Nat)).execute_filter
      "t" 5 () = 5) ∧
    filtFixture.execute_filter "t" 5 () =
      HookManager.execute_filter { hooks := [("t", [filtReg2, filtReg3])] }
        "t" (filterStep () 5 filtReg1) () ∧
    filtFixture.execute_filter "t" 5 () = 12 := by
  refine ⟨(execute_filter_spec { hooks := [] } "t" 5 ()).1 rfl,
    (execute_filter_spec filtFixture "t" 5 ()).2.1 filtReg1
      [filtReg2, filtReg3] rfl, ?_⟩
  rfl

/-- Claim C8: when PluginManager.load fails — the name does not resolve,
or the constructor raises, or on_load raises — it returns none and leaves
the catalog and the hook registry exactly as they were; and each of those
causes does make the load fail. -/
theorem load_failure_spec {H : Type} (m : PluginManager H)
    (resolve : String → Option (PluginClass H)) (name : String) :
    ((m.load resolve name).2 = none →
      (m.load resolve name).1.registry = m.registry ∧
      (m.load resolve name).1.hooks = m.hooks) ∧
    (alistGet m.loader.loaded name = none → resolve name = none →
      (m.load resolve name).2 = none) ∧
    (∀ cls, (m.loader.load resolve name).2 = some cls →
      (cls.init_ok = false ∨ cls.on_load_ok = false) →
      (m.load resolve name).2 = none) := by
  refine ⟨?_, ?_, ?_⟩
  · intro hfail
    cases hc : (m.loader.load resolve name).2 with
    | none => constructor <;> simp [PluginManager.load, hc]
    | some cls =>
        cases hinit : cls.init_ok with
        | false => constructor <;> simp [PluginManager.load, hc, hinit]
        | true =>
            cases hload : cls.on_load_ok with
            | false =>
                constructor <;> simp [PluginManager.load, hc, hinit, hload]
            | true =>
                exfalso
                simp [PluginManager.load, hc, hinit, hload] at hfail
  · intro h1 h2
    simp [PluginManager.load, PluginLoader.load, h1, h2]
  · intro cls hc hbad
    cases hinit : cls.init_ok with
    | false => simp [PluginManager.load, hc, hinit]
    | true =>
        rcases hbad with hb | hb
        · rw [hinit] at hb
          cases hb
        · simp [PluginManager.load, hc, hinit, hb]

/-- Witness for load_failure_spec: loading an unresolvable name on the
empty manager fails and leaves the (empty) catalog unchanged. -/
theorem load_failure_spec_witness :
    ((({} : PluginManager Unit).load (fun _ => none) "p").2 = none) ∧
    (({} : PluginManager Unit).load (fun _ => none) "p").1.registry =
      ({} : PluginManager Unit).registry := by
  have h := load_failure_spec ({} : PluginManager Unit) (fun _ => none) "p"
  have hn := h.2.1 rfl rfl
  exact ⟨hn, (h.1 hn).1⟩

/-- Claim C10: PluginManager.unload on an enabled plugin whose on_disable
raises still proceeds: when on_unload succeeds, the registrations owned by
the name are unregistered, the instance is removed from the catalog, the
cached type is evicted, and unload returns success. -/
theorem unload_proceeds_past_disable_failure {H : Type}
    (m : PluginManager H) (name : String) (p : Plugin H)
    (hget : m.registry.get name = some p)
    (hstate : p.state = PluginState.enabled)
    (hdis : p.cls.on_disable_ok = false)
    (hunl : p.cls.on_unload_ok = true)
    (hkeys : (m.registry.plugins.map Prod.fst).Nodup) :
    (m.unload name).2 = true ∧
    (m.unload name).1.hooks = (m.hooks.unregister name).1 ∧
    (m.unload name).1.registry = m.registry.unregister name ∧
    (m.unload name).1.loader = (m.loader.unload name).1 ∧
    (m.unload name).1.registry.get name = none ∧
    (∀ n x, x ∈ lookupHooks (m.unload name).1.hooks.hooks n →
      x.plugin_name ≠ name) := by
  have hdis1 : (m.disable name).1 = m := by
    simp [PluginManager.disable, hget, hstate, hdis]
  have hun : m.unload name =
      ({ m with hooks := (m.hooks.unregister name).1,
                registry := m.registry.unregister name,
                loader := (m.loader.unload name).1 }, true) := by
    simp [PluginManager.unload, hget, hstate, hunl, hdis1]
  rw [hun]
  refine ⟨rfl, rfl, rfl, rfl, ?_, ?_⟩
  · simp only [PluginRegistry.get, PluginRegistry.unregister]
    exact alistGet_remove_self _ _ hkeys
  · intro n x hx
    rw [lookupHooks_unregister] at hx
    have hmem := List.mem_filter.mp hx
    simpa [bne_iff_ne] using hmem.2

/-- Witness for unload_proceeds_past_disable_failure at a concrete
manager: unload succeeds, the catalog entry is gone and the hook owned by
"p" is unregistered. -/
theorem unload_proceeds_witness :
    (unloadFixture.unload "p").2 = true ∧
    (unloadFixture.unload "p").1.registry.get "p" = none := by
  have h := unload_proceeds_past_disable_failure unloadFixture "p"
    (samplePlugin .enabled true false true) rfl rfl rfl rfl
    (by simp [unloadFixture])
  exact ⟨h.1, h.2.2.2.2.1⟩

/-- Claim C9 counterexample: an enabled plugin whose on_disable succeeds
and whose on_unload raises: unload returns failure, but the plugin's state
has moved from enabled to disabled — the prior state is not left
unchanged. -/
theorem unload_failure_changes_state :
    ((sampleManager .enabled true true false).unload "p").2 = false ∧
    (((sampleManager .enabled true true false).unload "p").1.registry.get
      "p").map Plugin.state = some PluginState.disabled := by
  constructor <;> rfl

/-- Claim C9 as amended: when on_enable raises, enable returns failure and
the state becomes error; when on_disable raises, disable returns failure
and the manager is unchanged; when on_unload raises, unload returns
failure, the hook registry and type cache are untouched and the instance
stays in the catalog — with state unchanged, except that an enabled plugin
whose implicit disable succeeded is left disabled. -/
theorem transition_failure_spec {H : Type} (m : PluginManager H)
    (name : String) (p : Plugin H)
    (hget : m.registry.get name = some p) :
    (p.state ≠ PluginState.enabled → p.cls.on_enable_ok = false →
      (m.enable name).2 = false ∧
      (m.enable name).1.registry.get name =
        some { p with state := .error }) ∧
    (p.state ≠ PluginState.disabled → p.cls.on_disable_ok = false →
      m.disable name = (m, false)) ∧
    (p.cls.on_unload_ok = false →
      (m.unload name).2 = false ∧
      (m.unload name).1.hooks = m.hooks ∧
      (m.unload name).1.loader = m.loader ∧
      (p.state ≠ PluginState.enabled → (m.unload name).1 = m) ∧
      (p.state = PluginState.enabled → p.cls.on_disable_ok = false →
        (m.unload name).1 = m) ∧
      (p.state = PluginState.enabled → p.cls.on_disable_ok = true →
        (m.unload name).1.registry.get name =
          some { p with state := .disabled })) := by
  refine ⟨?_, ?_, ?_⟩
  · intro hne hok
    have he : m.enable name =
        ({ m with registry :=
            { plugins :=
                (alistSet m.registry.plugins name { p with state := .error }) } },
          false) := by
      simp [PluginManager.enable, hget, hne, hok]
    rw [he]
    exact ⟨rfl, by simp [PluginRegistry.get, alistGet_set_self]⟩
  · intro hnd hok
    simp [PluginManager.disable, hget, hnd, hok]
  · intro hunl
    by_cases hst : p.state = PluginState.enabled
    · by_cases hd : p.cls.on_disable_ok = true
      · have hdis : (m.disable name).1 =
            { m with registry :=
                { plugins :=
                    (alistSet m.registry.plugins name
                      { p with state := .disabled }) } } := by
          simp [PluginManager.disable, hget, hst, hd]
        have hu : m.unload name = ((m.disable name).1, false) := by
          simp [PluginManager.unload, hget, hunl, hst]
        rw [hu, hdis]
        refine ⟨rfl, rfl, rfl, ?_, ?_, ?_⟩
        · intro hcon
          exact absurd hst hcon
        · intro _ hcon
          rw [hd] at hcon
          cases hcon
        · intro _ _
          simp [PluginRegistry.get, alistGet_set_self]
      · have hd' : p.cls.on_disable_ok = false := by
          cases hb : p.cls.on_disable_ok
          · rfl
          · exact absurd hb hd
        have hdis : (m.disable name).1 = m := by
          simp [PluginManager.disable, hget, hst, hd']
        have hu : m.unload name = (m, false) := by
          simp [PluginManager.unload, hget, hunl, hst, hdis]
        rw [hu]
        refine ⟨rfl, rfl, rfl, fun _ => rfl, fun _ _ => rfl, ?_⟩
        intro _ hcon
        rw [hd'] at hcon
        cases hcon
    · have hu : m.unload name = (m, false) := by
        simp [PluginManager.unload, hget, hunl, hst]
      rw [hu]
      exact ⟨rfl, rfl, rfl, fun _ => rfl, fun hc _ => absurd hc hst,
        fun hc _ => absurd hc hst⟩

/-- Witness for transition_failure_spec: a loaded plugin whose on_enable
raises ends in state error with enable reporting failure, and a loaded
plugin whose on_unload raises survives unload unchanged. -/
theorem transition_failure_spec_witness :
    ((sampleManager .loaded false true true).enable "p").2 = false ∧
    ((sampleManager .loaded false true true).enable "p").1.registry.get "p" =
      some { samplePlugin .loaded false true true with
        state := PluginState.error } ∧
    ((sampleManager .loaded true true false).unload "p").1 =
      sampleManager .loaded true true false := by
  have h1 := transition_failure_spec (sampleManager .loaded false true true)
    "p" (samplePlugin .loaded false true true) rfl
  have h2 := transition_failure_spec (sampleManager .loaded true true false)
    "p" (samplePlugin .loaded true true false) rfl
  have he := h1.1 (by decide) rfl
  exact ⟨he.1, he.2, (h2.2.2 rfl).2.2.2.1 (by decide)⟩

/-- Claim C1 counterexample: disable on a plugin in state loaded succeeds
and moves it to disabled (so disabled is entered from loaded, not only
from enabled); disable and enable on a plugin in state error succeed and
move it to disabled resp. enabled (so error is left without unload). -/
theorem state_machine_counterexample :
    (((sampleManager .loaded true true true).disable "p").1.registry.get
      "p").map Plugin.state = some PluginState.disabled ∧
    ((sampleManager .loaded true true true).disable "p").2 = true ∧
    (((sampleManager .error true true true).disable "p").1.registry.get
      "p").map Plugin.state = some PluginState.disabled ∧
    ((sampleManager .error true true true).disable "p").2 = true ∧
    (((sampleManager .error true true true).enable "p").1.registry.get
      "p").map Plugin.state = some PluginState.enabled ∧
    ((sampleManager .error true true true).enable "p").2 = true := by
  refine ⟨rfl, rfl, rfl, rfl, rfl, rfl⟩

/-- Claim C1 as amended: enable moves any plugin that is not already
enabled — whatever its state, including error — to enabled when on_enable
succeeds and to error when it raises; disable moves any plugin that is not
already disabled — including one in loaded or error — to disabled when
on_disable succeeds and leaves it unchanged when on_disable raises; both
are idempotent successes on their own state. -/
theorem lifecycle_transition_spec {H : Type} (m : PluginManager H)
    (name : String) (p : Plugin H)
    (hget : m.registry.get name = some p) :
    (p.state = PluginState.enabled → m.enable name = (m, true)) ∧
    (p.state ≠ PluginState.enabled → p.cls.on_enable_ok = true →
      (m.enable name).2 = true ∧
      (m.enable name).1.registry.get name =
        some { p with state := .enabled }) ∧
    (p.state ≠ PluginState.enabled → p.cls.on_enable_ok = false →
      (m.enable name).2 = false ∧
      (m.enable name).1.registry.get name =
        some { p with state := .error }) ∧
    (p.state = PluginState.disabled → m.disable name = (m, true)) ∧
    (p.state ≠ PluginState.disabled → p.cls.on_disable_ok = true →
      (m.disable name).2 = true ∧
      (m.disable name).1.registry.get name =
        some { p with state := .disabled }) ∧
    (p.state ≠ PluginState.disabled → p.cls.on_disable_ok = false →
      m.disable name = (m, false)) := by
  refine ⟨?_, ?_, ?_, ?_, ?_, ?_⟩
  · intro hst
    simp [PluginManager.enable, hget, hst]
  · intro hst hok
    have he : m.enable name =
        ({ m with registry :=
            { plugins :=
                (alistSet m.registry.plugins name
                  { p with state := .enabled }) } }, true) := by
      simp [PluginManager.enable, hget, hst, hok]
    rw [he]
    exact ⟨rfl, by simp [PluginRegistry.get, alistGet_set_self]⟩
  · intro hst hok
    have he : m.enable name =
        ({ m with registry :=
            { plugins :=
                (alistSet m.registry.plugins name
                  { p with state := .error }) } }, false) := by
      simp [PluginManager.enable, hget, hst, hok]
    rw [he]
    exact ⟨rfl, by simp [PluginRegistry.get, alistGet_set_self]⟩
  · intro hst
    simp [PluginManager.disable, hget, hst]
  · intro hst hok
    have he : m.disable name =
        ({ m with registry :=
            { plugins :=
                (alistSet m.registry.plugins name
                  { p with state := .disabled }) } }, true) := by
      simp [PluginManager.disable, hget, hst, hok]
    rw [he]
    exact ⟨rfl, by simp [PluginRegistry.get, alistGet_set_self]⟩
  · intro hst hok
    simp [PluginManager.disable, hget, hst, hok]

/-- Witness for lifecycle_transition_spec: a plugin stuck in state error
with a succeeding on_enable is moved to enabled by enable. -/
theorem lifecycle_transition_spec_witness :
    ((sampleManager .error true true true).enable "p").2 = true ∧
    ((sampleManager .error true true true).enable "p").1.registry.get "p" =
      some { samplePlugin .error true true true with
        state := PluginState.enabled } := by
  have h := lifecycle_transition_spec (sampleManager .error true true true)
    "p" (samplePlugin .error true true true) rfl
  exact h.2.1 (by decide) rfl

/-- Claim C2 counterexample: after loading "p" once, a second load of "p"
succeeds but re-registers the plugin's hook, so the hook registry is not
left as it was — the list for hook "h" grows from one to two entries. -/
theorem load_twice_duplicates_hooks :
    (lookupHooks ((dupM1.load dupResolve "p").1.hooks.hooks) "h").length
      = 2 ∧
    (lookupHooks dupM1.hooks.hooks "h").length = 1 ∧
    (dupM1.load dupResolve "p").2 ≠ none := by
  refine ⟨rfl, rfl, ?_⟩
  intro hcon
  cases hcon

/-- Claim C2 as amended: load on a name already in the loader's type cache
does return the cached type without consulting resolution (the result does
not depend on the resolver), but it is not a no-op: it creates a fresh
instance, runs on_load again, re-registers the class's hooks on top of the
existing registry, and overwrites the catalog entry with the new
instance. -/
theorem load_cached_spec {H : Type} (m : PluginManager H)
    (resolve resolve2 : String → Option (PluginClass H)) (name : String)
    (cls : PluginClass H)
    (hcache : alistGet m.loader.loaded name = some cls)
    (hinit : cls.init_ok = true) (hload : cls.on_load_ok = true) :
    m.load resolve name = m.load resolve2 name ∧
    (m.load resolve name).2 =
      some { cls := cls, context := { plugin_name := name },
             state := .loaded, hooks := cls.load_hooks } ∧
    (m.load resolve name).1.loader = m.loader ∧
    (m.load resolve name).1.hooks = registerAll m.hooks cls.load_hooks ∧
    (m.load resolve name).1.registry = m.registry.register
      { cls := cls, context := { plugin_name := name },
        state := .loaded, hooks := cls.load_hooks } := by
  have hl : ∀ r : String → Option (PluginClass H),
      m.loader.load r name = (m.loader, some cls) := by
    intro r
    simp [PluginLoader.load, hcache]
  refine ⟨?_, ?_, ?_, ?_, ?_⟩ <;>
    simp [PluginManager.load, hl, hinit, hload, Plugin.get_hooks]

/-- Witness for load_cached_spec: the second load of "p" returns a fresh
instance built from the cached class, and its result agrees with a load
whose resolver can no longer resolve anything. -/
theorem load_cached_spec_witness :
    (dupM1.load dupResolve "p").2 =
      some { cls := dupClass, context := { plugin_name := "p" },
             state := .loaded, hooks := [dupHook] } ∧
    dupM1.load (fun _ => none) "p" = dupM1.load dupResolve "p" := by
  have h := load_cached_spec dupM1 (fun _ => none) dupResolve "p" dupClass
    rfl rfl rfl
  have h2 := load_cached_spec dupM1 dupResolve dupResolve "p" dupClass
    rfl rfl rfl
  exact ⟨h2.2.1, h.1⟩

/-- Claim C3 (code bug, evaluated): the plugin(...) decorator with noop
action false and a wrapped class supplying the distinguished action true
for on_load and on_unload: the wrapper's on_load is the supplied action
and an unsupplied on_enable is the no-op, but the wrapper's on_unload is
the no-op even though the class supplied one — the supplied on_unload is
never invoked. -/
theorem plugin_decorator_drops_on_unload :
    (plugin false "p" "1.0.0" ""
      { on_load := some true, on_unload := some true }).on_load = true ∧
    (plugin false "p" "1.0.0" ""
      { on_load := some true, on_unload := some true }).on_enable = false ∧
    (plugin false "p" "1.0.0" ""
      { on_load := some true, on_unload := some true }).on_unload = false ∧
    ({ on_load := some true, on_unload := some true } :
      PlainClass Bool).on_unload = some true :=
  ⟨rfl, rfl, rfl, rfl⟩

end RoadPlugin
